import Mathlib

/-!
Verification development for the SearchAI repository.

We embed the core logic of `src/main.py` (the agent router and its text
heuristics), `src/client.py` (the run client compatibility layer: output
normalizer, discovery, default-agent choice, run-with-fallback) and
`src/fastmcp_server/server.py` (the tool functions) as executable Lean
definitions, and prove the specification claims about them.

Strings are modelled as `List Char`; `str.lower()` is modelled with
`Char.toLower`, which agrees with Python on ASCII input (all inputs of
interest here are ASCII).  External effects (MCP tool calls, HTTP, the
LangChain reasoning engine, yfinance, Pinecone, FireCrawl) are modelled
as environment parameters that either return a value or fail; a Python
exception is modelled as the failure case carrying the rendered message.
-/

set_option autoImplicit false

/-- Python `str` whitespace test, restricted to the ASCII whitespace that
`str.split()` / `str.strip()` use on the inputs considered here. -/
def pySpace (c : Char) : Bool :=
  c == ' ' || c == '\t' || c == '\n' || c == '\r'

/-- Model of Python `str.lower()` (ASCII-faithful). -/
def pyLower (s : List Char) : List Char :=
  s.map Char.toLower

/-- Model of Python `str.strip()`: drop leading and trailing whitespace. -/
def pyStrip (s : List Char) : List Char :=
  ((s.dropWhile pySpace).reverse.dropWhile pySpace).reverse

/-- Model of Python `str.startswith`: `chPre p s` tests whether `p` is an
initial segment of `s`. -/
def chPre : List Char → List Char → Bool
  | [], _ => true
  | _ :: _, [] => false
  | a :: as, b :: bs => a == b && chPre as bs

/-- Model of `text.split(sep, 1)[1]` for a non-empty separator `sep`:
returns the part of `text` after the first occurrence of `sep`, or `none`
when `sep` does not occur (in which case the Python indexing raises
`IndexError`). -/
def splitOnceAfter (sep : List Char) : List Char → Option (List Char)
  | [] => if chPre sep [] then some (([] : List Char).drop sep.length) else none
  | c :: cs =>
    if chPre sep (c :: cs) then some ((c :: cs).drop sep.length)
    else splitOnceAfter sep cs

/-- Model of Python `sep in text` (substring containment). -/
def containsSub (sep text : List Char) : Bool :=
  (splitOnceAfter sep text).isSome

/-- Accumulator worker for `splitP`; mirrors the scanning loop of Python
`str.split()` with no argument. -/
def splitPAux (p : Char → Bool) : List Char → List Char → List (List Char)
  | [], acc => if acc.isEmpty then [] else [acc.reverse]
  | c :: cs, acc =>
    if p c then
      if acc.isEmpty then splitPAux p cs [] else acc.reverse :: splitPAux p cs []
    else splitPAux p cs (c :: acc)

/-- Split a character list on a separator class `p`, discarding empty
fields: model of Python `str.split()` when `p = pySpace`. -/
def splitP (p : Char → Bool) (text : List Char) : List (List Char) :=
  splitPAux p text []

/-- Model of `text.split(maxsplit=1)[1]`: skip leading whitespace, skip
the first token, skip the following whitespace run; the remainder is kept
verbatim.  (Only used by the router when the full split has more than one
token, so the remainder is non-empty there.) -/
def splitMax1Rest (text : List Char) : List Char :=
  ((text.dropWhile pySpace).dropWhile fun c => !pySpace c).dropWhile pySpace

/-- Model of `", ".join`-style joining with a fixed separator. -/
def joinWith (sep : List Char) : List (List Char) → List Char
  | [] => []
  | [x] => x
  | x :: y :: rest => x ++ sep ++ joinWith sep (y :: rest)

/- ------------------------------------------------------------------ -/
/- `src/main.py`: `_maybe_upper_ticker`                                -/
/- ------------------------------------------------------------------ -/

/-- The stop-set of `_maybe_upper_ticker` in `src/main.py`. -/
def STOP : List (List Char) :=
  ["CEO", "CFO", "CTO", "USD", "A", "AN", "THE", "IS", "OF", "FOR"].map String.toList

/-- Model of Python `str.isalpha()` (ASCII-faithful): non-empty and all
characters alphabetic. -/
def pyIsAlpha (t : List Char) : Bool :=
  !t.isEmpty && t.all fun c => c.isAlpha

/-- Model of Python `str.isupper()` (ASCII-faithful): at least one cased
character and no cased character is lowercase; on ASCII the cased
characters are exactly the alphabetic ones. -/
def pyIsUpper (t : List Char) : Bool :=
  (t.any fun c => c.isAlpha) && t.all fun c => !c.isAlpha || c.isUpper

/-- The per-token test of the loop in `_maybe_upper_ticker`:
`tok.isalpha() and tok.isupper() and 1 <= len(tok) <= 6 and tok not in STOP`. -/
def isTickerTok (tok : List Char) : Bool :=
  pyIsAlpha tok && pyIsUpper tok && decide (1 ≤ tok.length) &&
    decide (tok.length ≤ 6) && !(STOP.contains tok)

/-- The `for tok in ...` loop of `_maybe_upper_ticker`: first token
passing `isTickerTok`, if any. -/
def firstTicker : List (List Char) → Option (List Char)
  | [] => none
  | t :: ts => if isTickerTok t then some t else firstTicker ts

/-- `text.replace(",", " ")` applied characterwise. -/
def commaToSp (c : Char) : Char :=
  if c == ',' then ' ' else c

/-- Embedding of `_maybe_upper_ticker` from `src/main.py`. -/
def _maybe_upper_ticker (text : List Char) : Option (List Char) :=
  if containsSub "nvidia".toList (pyLower text) then some "NVDA".toList
  else firstTicker (splitP pySpace (text.map commaToSp))

/-- Spec-side ticker token test, following the words of the spec: purely
alphabetic, entirely uppercase, length 1 to 6, and not in the stop-set. -/
def tickerTokSpec (tok : List Char) : Bool :=
  (tok.all fun c => c.isAlpha) && (tok.all fun c => c.isUpper) &&
    decide (1 ≤ tok.length) && decide (tok.length ≤ 6) && !(STOP.contains tok)

/-- Spec-side ticker candidate, following the words of the spec: "NVDA"
when the text contains "nvidia" case-insensitively, else the first
whitespace/comma-separated token passing `tickerTokSpec`. -/
def ticker_spec (text : List Char) : Option (List Char) :=
  if containsSub "nvidia".toList (pyLower text) then some "NVDA".toList
  else (splitP (fun c => pySpace c || c == ',') text).find? tickerTokSpec

/- ------------------------------------------------------------------ -/
/- `src/main.py`: the `agent` router                                   -/
/- ------------------------------------------------------------------ -/

/-- Result of one bridged MCP tool call (or of the LangChain run): the
returned value rendered as a string, or a raised exception rendered as a
string. -/
inductive CallRes where
  | ok (s : List Char)
  | err (e : List Char)
  deriving DecidableEq

/-- Environment of external calls available to the router: the three MCP
tool bridges of `src/main.py` and the LangChain agent run. -/
structure ToolEnv where
  finance : List Char → CallRes
  hello : List Char → CallRes
  crawl : List Char → CallRes
  lc : List Char → CallRes

/-- Observable events of one router run: chunks yielded by the generator
and tool/reasoning invocations it performs. -/
inductive REvent where
  | yield (chunk : List Char)
  | callFinance (ticker : List Char)
  | callHello (nm : List Char)
  | callCrawl (query : List Char)
  | callLC (prompt : List Char)
  deriving DecidableEq

/-- Outcome of one router run: the ordered event trace and whether the
generator terminated by raising an uncaught exception. -/
structure RunResult where
  events : List REvent
  raised : Bool
  deriving DecidableEq

/-- Diagnostic chunk of the finance branch:
`f"[agent] MCP finance error: {e}"`. -/
def financeErrMsg (e : List Char) : List Char :=
  "[agent] MCP finance error: ".toList ++ e

/-- Diagnostic chunk of the hello branch. -/
def helloErrMsg (e : List Char) : List Char :=
  "[agent] MCP hello error: ".toList ++ e

/-- Diagnostic chunk of the crawl branch. -/
def crawlErrMsg (e : List Char) : List Char :=
  "[agent] MCP crawl error: ".toList ++ e

/-- Echo fallback chunk: `f"agent received: {text}"`. -/
def echoMsg (text : List Char) : List Char :=
  "agent received: ".toList ++ text

/-- The name argument of the hello branch:
`text.split(maxsplit=1)[1] if len(text.split()) > 1 else "there"`. -/
def helloName (text : List Char) : List Char :=
  if 1 < (splitP pySpace text).length then splitMax1Rest text
  else "there".toList

/-- Stages 4–5 of the router: LangChain reasoning, echo fallback. -/
def routeLC (env : ToolEnv) (text : List Char) : RunResult :=
  match env.lc text with
  | CallRes.ok r => ⟨[REvent.callLC text, REvent.yield r], false⟩
  | CallRes.err _ => ⟨[REvent.callLC text, REvent.yield (echoMsg text)], false⟩

/-- Stage 3 of the router: the crawl branch.  The guard tests the
lowercased text, but `text.split("crawl:", 1)` searches the original
text; when `"crawl:"` occurs only in another letter case the subscript
`[1]` raises `IndexError` (modelled by `raised := true`). -/
def routeCrawl (env : ToolEnv) (text : List Char) : RunResult :=
  if containsSub "crawl:".toList (pyLower text) then
    match splitOnceAfter "crawl:".toList text with
    | none => ⟨[], true⟩
    | some tail =>
      let query := pyStrip tail
      if query.isEmpty then routeLC env text
      else
        match env.crawl query with
        | CallRes.ok r => ⟨[REvent.callCrawl query, REvent.yield r], false⟩
        | CallRes.err e =>
          let rest := routeLC env text
          ⟨REvent.callCrawl query :: REvent.yield (crawlErrMsg e) :: rest.events, rest.raised⟩
  else routeLC env text

/-- Stage 2 of the router: the hello branch. -/
def routeGreeting (env : ToolEnv) (text : List Char) : RunResult :=
  if chPre "hello".toList (pyLower text) then
    let nm := helloName text
    match env.hello nm with
    | CallRes.ok r => ⟨[REvent.callHello nm, REvent.yield r], false⟩
    | CallRes.err e =>
      let rest := routeCrawl env text
      ⟨REvent.callHello nm :: REvent.yield (helloErrMsg e) :: rest.events, rest.raised⟩
  else routeCrawl env text

/-- Embedding of the body of the `agent` handler of `src/main.py`,
operating on the already-extracted text. -/
def route (env : ToolEnv) (text : List Char) : RunResult :=
  if text.isEmpty then ⟨[REvent.yield "(empty input)".toList], false⟩
  else
    match _maybe_upper_ticker text with
    | some tick =>
      match env.finance tick with
      | CallRes.ok r => ⟨[REvent.callFinance tick, REvent.yield r], false⟩
      | CallRes.err e =>
        let rest := routeGreeting env text
        ⟨REvent.callFinance tick :: REvent.yield (financeErrMsg e) :: rest.events, rest.raised⟩
    | none => routeGreeting env text

/-- A message part: string content (meaningful to the router) or any
non-string content (ignored by `_extract_text`). -/
inductive MsgPart where
  | strPart (content : List Char)
  | otherPart
  deriving DecidableEq

/-- A message: an ordered list of parts. -/
structure Msg where
  parts : List MsgPart
  deriving DecidableEq

/-- Embedding of `_extract_text` from `src/main.py`: concatenate all
string contents with single spaces, then strip. -/
def _extract_text (msgs : List Msg) : List Char :=
  pyStrip (joinWith [' ']
    (msgs.flatMap fun m =>
      m.parts.filterMap fun p =>
        match p with
        | MsgPart.strPart c => some c
        | MsgPart.otherPart => none))

/-- The full `agent` handler: extract text from the message list, then
route. -/
def agentRun (env : ToolEnv) (msgs : List Msg) : RunResult :=
  route env (_extract_text msgs)

/-- A tool environment in which every external call succeeds. -/
def envOk : ToolEnv :=
  ⟨fun _ => CallRes.ok "F".toList, fun _ => CallRes.ok "H".toList,
   fun _ => CallRes.ok "C".toList, fun _ => CallRes.ok "L".toList⟩

/-- A tool environment in which the finance call fails and the other
calls succeed. -/
def envFinErr : ToolEnv :=
  ⟨fun _ => CallRes.err "down".toList, fun _ => CallRes.ok "H".toList,
   fun _ => CallRes.ok "C".toList, fun _ => CallRes.ok "L".toList⟩

/- ------------------------------------------------------------------ -/
/- `src/client.py`: output normalizer                                  -/
/- ------------------------------------------------------------------ -/

/-- One heterogeneous output item as classified by `_normalize_output`:
a plain string; a mapping containing key `"content"` (carrying the
`str()` rendering of that value); a non-mapping object with a non-`None`
`content` attribute (carrying its `str()` rendering); or anything else
(carrying its own `str()` rendering). -/
inductive OutItem where
  | str (s : List Char)
  | mapWithContent (contentStr : List Char)
  | attrContent (contentStr : List Char)
  | plainItem (selfStr : List Char)
  deriving DecidableEq

/-- The body of the loop of `_normalize_output`: the ordered
first-match-wins rules applied to one item. -/
def normalizeItem : OutItem → List Char
  | OutItem.str s => s
  | OutItem.mapWithContent c => c
  | OutItem.attrContent c => c
  | OutItem.plainItem r => r

/-- Embedding of `_normalize_output` from `src/client.py`; the argument
is `none` for Python `None` (`seq or []` turns it into the empty list). -/
def _normalize_output : Option (List OutItem) → List (List Char)
  | none => []
  | some [] => []
  | some (item :: rest) => normalizeItem item :: _normalize_output (some rest)

/- ------------------------------------------------------------------ -/
/- `src/client.py`: discovery and default-agent choice                 -/
/- ------------------------------------------------------------------ -/

/-- A JSON value, as returned by `r.json()`. -/
inductive JVal where
  | jstr (s : List Char)
  | jnum (n : Int)
  | jbool (b : Bool)
  | jnull
  | jarr (xs : List JVal)
  | jobj (fields : List (List Char × JVal))

/-- First-match field lookup in a JSON object (parsed dictionaries have
unique keys). -/
def jlookup (key : List Char) : List (List Char × JVal) → Option JVal
  | [] => none
  | (k, v) :: rest => if k = key then some v else jlookup key rest

/-- The items produced by `for item in data.get("agents", [])`: a list
yields its elements; a string yields its characters as one-character
strings; a mapping yields its keys; any other value raises `TypeError`
(`none`), which the surrounding `except` turns into `[]`. -/
def agentItems : JVal → Option (List JVal)
  | JVal.jarr xs => some xs
  | JVal.jstr s => some (s.map fun c => JVal.jstr [c])
  | JVal.jobj fs => some (fs.map fun f => JVal.jstr f.1)
  | _ => none

/-- The per-item filter of `discover_agents`: a mapping whose `"name"`
value is a string contributes that string, a plain string contributes
itself, anything else is skipped. -/
def itemName : JVal → Option (List Char)
  | JVal.jobj fs =>
    match jlookup "name".toList fs with
    | some (JVal.jstr s) => some s
    | _ => none
  | JVal.jstr s => some s
  | _ => none

/-- Result of the discovery HTTP request: a parsed JSON body, or any
network / non-2xx / parse failure. -/
inductive HttpRes where
  | ok (body : JVal)
  | netErr

/-- Embedding of `discover_agents` from `src/client.py`.  A non-mapping
body makes `data.get` raise `AttributeError`, a non-iterable `"agents"`
value makes the `for` raise `TypeError`; both are caught by the
surrounding `except` and yield `[]`. -/
def discover_agents : HttpRes → List (List Char)
  | HttpRes.netErr => []
  | HttpRes.ok (JVal.jobj fields) =>
    match jlookup "agents".toList fields with
    | none => []
    | some v =>
      match agentItems v with
      | none => []
      | some items => items.filterMap itemName
  | HttpRes.ok _ => []

/-- The preference order of `choose_default_agent`. -/
def PRIORITY : List (List Char) :=
  ["agent", "chat_agent", "echo"].map String.toList

/-- The `for preferred in (...)` loop of `choose_default_agent`. -/
def choosePref : List (List Char) → List (List Char) → Option (List Char)
  | [], _ => none
  | p :: ps, names => if names.contains p then some p else choosePref ps names

/-- Embedding of `choose_default_agent` from `src/client.py`, applied to
the discovered name list. -/
def choose_default_agent (names : List (List Char)) : Option (List Char) :=
  match choosePref PRIORITY names with
  | some p => some p
  | none => names.head?

/- ------------------------------------------------------------------ -/
/- `src/client.py`: `run_with_fallback`                                -/
/- ------------------------------------------------------------------ -/

/-- A value found under `"output"` or `"data"` in the fallback response
body: a JSON string or a list of output items. -/
inductive FVal where
  | vstr (s : List Char)
  | vlist (xs : List OutItem)
  deriving DecidableEq

/-- Python truthiness of such a value (`""` and `[]` are falsy). -/
def fTruthy : FVal → Bool
  | FVal.vstr s => !s.isEmpty
  | FVal.vlist xs => !xs.isEmpty

/-- The fallback response body, with its optional `"output"` and
`"data"` fields. -/
structure FBody where
  output : Option FVal
  dataF : Option FVal
  deriving DecidableEq

/-- Embedding of `data.get("output") or data.get("data") or []`: Python
`or` takes the first truthy operand; `None` (absent key) is falsy. -/
def extractOut (body : FBody) : FVal :=
  match body.output with
  | some v =>
    if fTruthy v then v
    else
      match body.dataF with
      | some w => if fTruthy w then w else FVal.vlist []
      | none => FVal.vlist []
  | none =>
    match body.dataF with
    | some w => if fTruthy w then w else FVal.vlist []
    | none => FVal.vlist []

/-- The claim-side reading of the same extraction, taking "under key
`"output"`, else `"data"`, else an empty sequence" as key-presence
lookup. -/
def extractOutByKey (body : FBody) : FVal :=
  match body.output with
  | some v => v
  | none =>
    match body.dataF with
    | some w => w
    | none => FVal.vlist []

/-- `if isinstance(out, str): out = [out]` followed by `return out`. -/
def wrapStr : FVal → List OutItem
  | FVal.vstr s => [OutItem.str s]
  | FVal.vlist xs => xs

/-- Outcome of the primary SDK run path: a run whose `output` is a list
of items, a protocol-level `ACPError` (the only exception the code
catches), or any other exception (which propagates). -/
inductive PrimaryRes where
  | ok (out : List OutItem)
  | acpError
  | otherExc (e : List Char)
  deriving DecidableEq

/-- Outcome of the fallback raw POST: a parsed JSON-like body, or a
network / non-2xx / parse failure (which propagates to the caller). -/
inductive FallbackRes where
  | ok (body : FBody)
  | httpError (e : List Char)
  deriving DecidableEq

/-- The external world as seen by one `run_with_fallback` call. -/
structure RunEnv where
  primary : PrimaryRes
  fallback : FallbackRes
  deriving DecidableEq

/-- One attempted request path. -/
inductive Attempt where
  | primaryRun
  | fallbackRaw
  deriving DecidableEq

/-- Result of `run_with_fallback`: returned item list, or a propagated
exception. -/
inductive RunOut where
  | ret (items : List OutItem)
  | exc (e : List Char)
  deriving DecidableEq

/-- Embedding of `run_with_fallback` from `src/client.py`, recording the
request paths attempted in order. -/
def run_with_fallback (env : RunEnv) : List Attempt × RunOut :=
  match env.primary with
  | PrimaryRes.ok out => ([Attempt.primaryRun], RunOut.ret out)
  | PrimaryRes.otherExc e => ([Attempt.primaryRun], RunOut.exc e)
  | PrimaryRes.acpError =>
    match env.fallback with
    | FallbackRes.httpError e => ([Attempt.primaryRun, Attempt.fallbackRaw], RunOut.exc e)
    | FallbackRes.ok body =>
      ([Attempt.primaryRun, Attempt.fallbackRaw], RunOut.ret (wrapStr (extractOut body)))

/- ------------------------------------------------------------------ -/
/- `src/fastmcp_server/server.py`: the registered tools                -/
/- ------------------------------------------------------------------ -/

/-- An entry of the DuckDuckGo search result list: a mapping with an
optional `'link'` value, or a non-mapping entry whose `.get` access
raises (carrying the rendered exception). -/
inductive SItem where
  | sDict (link : Option (List Char))
  | sOther (getExc : List Char)
  deriving DecidableEq

/-- The value returned by `search_tool.run(query)`: a string, a list of
entries (carrying its own `str()` rendering), or any other value
(carrying its `str()` rendering). -/
inductive SVal where
  | svStr (s : List Char)
  | svList (items : List SItem) (selfRepr : List Char)
  | svOther (selfRepr : List Char)
  deriving DecidableEq

/-- External world of `web_crawl_tool`: the DuckDuckGo search (which may
raise) and the FireCrawl constructor + `load` for a given URL (which may
raise); a loaded document is its `page_content`. -/
structure CrawlEnv where
  searchRun : List Char → Except (List Char) SVal
  loaderLoad : List Char → Except (List Char) (List (List Char))

/-- The `try` body of `web_crawl_tool`, before the `except` wrapper. -/
def web_crawl_body (env : CrawlEnv) (query : List Char) : Except (List Char) (List Char) := do
  let sr ← env.searchRun query
  match sr with
  | SVal.svStr s => pure s
  | SVal.svOther r => pure r
  | SVal.svList [] r => pure r
  | SVal.svList (SItem.sOther exc :: _) _ => Except.error exc
  | SVal.svList (SItem.sDict none :: _) r => pure r
  | SVal.svList (SItem.sDict (some l) :: _) r =>
    if l.isEmpty then pure r
    else do
      let docs ← env.loaderLoad l
      match docs with
      | [] => pure ("No content found for ".toList ++ l)
      | d :: _ => pure (d.take 4000)

/-- Embedding of `web_crawl_tool`: the body wrapped in
`except Exception as e: return str(f"Error in web_crawl_tool: {e}")`. -/
def web_crawl_tool (env : CrawlEnv) (query : List Char) : List Char :=
  match web_crawl_body env query with
  | Except.ok s => s
  | Except.error e => "Error in web_crawl_tool: ".toList ++ e

/-- External world of `yahoo_finance_tool`: constructing the ticker
object, reading `fast_info['last_price']` (absent keys give `none`) and
reading `info.get('regularMarketPrice')`; each step may raise.  A price
is carried as its rendered string. -/
structure YahooEnv where
  tickerCtor : List Char → Except (List Char) Unit
  fastInfo : Except (List Char) (Option (List Char))
  info : Except (List Char) (Option (List Char))

/-- The `try` body of `yahoo_finance_tool`. -/
def yahoo_body (env : YahooEnv) (ticker : List Char) : Except (List Char) (List Char) := do
  env.tickerCtor ticker
  let fi ← env.fastInfo
  let price ←
    match fi with
    | some p => pure (some p)
    | none => env.info
  match price with
  | none => pure ("Could not fetch price for ".toList ++ ticker)
  | some p => pure ("Latest price for ".toList ++ ticker ++ ": ".toList ++ p)

/-- Embedding of `yahoo_finance_tool` with its `except` wrapper. -/
def yahoo_finance_tool (env : YahooEnv) (ticker : List Char) : List Char :=
  match yahoo_body env ticker with
  | Except.ok s => s
  | Except.error e => "Error in yahoo_finance_tool: ".toList ++ e

/-- External world of `embedder_tool`: constructing the embedder, the
BM25 encoder, the Pinecone index and the retriever (folded into one
setup step), and `retriever.add_texts`. -/
structure EmbedEnv where
  setup : Except (List Char) Unit
  addTexts : List Char → Except (List Char) Unit

/-- The `try` body of `embedder_tool`. -/
def embedder_body (env : EmbedEnv) (text : List Char) : Except (List Char) (List Char) := do
  env.setup
  env.addTexts text
  pure "Embedded text into Pinecone for hybrid search.".toList

/-- Embedding of `embedder_tool` with its `except` wrapper. -/
def embedder_tool (env : EmbedEnv) (text : List Char) : List Char :=
  match embedder_body env text with
  | Except.ok s => s
  | Except.error e => "Error in embedder_tool: ".toList ++ e

/-- External world of `similarity_search_tool`: retriever setup and
`retriever.invoke`, returning the documents as their `page_content`. -/
structure SimEnv where
  setup : Except (List Char) Unit
  invoke : List Char → Except (List Char) (List (List Char))

/-- The `try` body of `similarity_search_tool`. -/
def similarity_body (env : SimEnv) (query : List Char) : Except (List Char) (List Char) := do
  env.setup
  let docs ← env.invoke query
  match docs with
  | [] => pure "No similar documents found.".toList
  | _ :: _ => pure (joinWith "\n\n".toList docs)

/-- Embedding of `similarity_search_tool` with its `except` wrapper. -/
def similarity_search_tool (env : SimEnv) (query : List Char) : List Char :=
  match similarity_body env query with
  | Except.ok s => s
  | Except.error e => "Error in similarity_search_tool: ".toList ++ e

/-- Embedding of `hello_tool` (no `try`, but its body is a constant). -/
def hello_tool (_query : List Char) : List Char :=
  "hello from mcp".toList

/- ------------------------------------------------------------------ -/
/- Helper lemmas                                                       -/
/- ------------------------------------------------------------------ -/

/-- On a non-empty token, the pair `isalpha() and isupper()` agrees with
the spec-side "purely alphabetic and entirely uppercase". -/
theorem pyAlphaUpper_eq (c : Char) (cs : List Char) :
    (pyIsAlpha (c :: cs) && pyIsUpper (c :: cs)) =
      (((c :: cs).all fun x => x.isAlpha) && ((c :: cs).all fun x => x.isUpper)) := by
  rw [Bool.eq_iff_iff]
  simp only [pyIsAlpha, pyIsUpper, Bool.and_eq_true, List.all_eq_true, List.any_eq_true,
    Bool.or_eq_true, Bool.not_eq_true', List.isEmpty_cons]
  constructor
  · rintro ⟨⟨-, hall⟩, -, himp⟩
    refine ⟨hall, fun x hx => ?_⟩
    rcases himp x hx with h | h
    · rw [hall x hx] at h
      cases h
    · exact h
  · rintro ⟨hall, hup⟩
    exact ⟨⟨trivial, hall⟩, ⟨c, List.mem_cons_self c cs, hall c (List.mem_cons_self c cs)⟩,
      fun x hx => Or.inr (hup x hx)⟩

/-- The per-token test of the source loop agrees with the spec-side
token test on every token. -/
theorem isTickerTok_eq_spec (tok : List Char) : isTickerTok tok = tickerTokSpec tok := by
  cases tok with
  | nil => decide
  | cons c cs =>
    unfold isTickerTok tickerTokSpec
    rw [pyAlphaUpper_eq]

/-- The scanning loop of `_maybe_upper_ticker` is `List.find?`. -/
theorem firstTicker_eq_find (l : List (List Char)) :
    firstTicker l = l.find? isTickerTok := by
  induction l with
  | nil => rfl
  | cons t ts ih =>
    by_cases h : isTickerTok t = true
    · simp [firstTicker, h, List.find?_cons_of_pos, ih]
    · have h' : isTickerTok t = false := by
        cases hh : isTickerTok t
        · rfl
        · exact absurd hh h
      simp [firstTicker, h', List.find?_cons_of_neg, ih]

/-- Replacing commas by spaces and splitting on whitespace is the same
as splitting on the whitespace-or-comma separator class. -/
theorem splitPAux_comma (text : List Char) : ∀ acc,
    splitPAux pySpace (text.map commaToSp) acc =
      splitPAux (fun c => pySpace c || c == ',') text acc := by
  induction text with
  | nil => intro acc; rfl
  | cons c cs ih =>
    intro acc
    by_cases h : c = ','
    · subst h
      have h1 : commaToSp ',' = ' ' := by decide
      have h2 : pySpace ' ' = true := by decide
      have h3 : (pySpace ',' || (',' == ',')) = true := by decide
      simp only [List.map_cons, h1, splitPAux, h2, h3, if_true, ih]
    · have h1 : commaToSp c = c := by simp [commaToSp, h]
      have h2 : (pySpace c || (c == ',')) = pySpace c := by
        have : (c == ',') = false := by simp [h]
        simp [this]
      simp only [List.map_cons, h1, splitPAux, h2, ih]

/-- Dropping a prefix whose characters all satisfy the scan predicate. -/
theorem dropWhile_append_of_all (p : Char → Bool) (l1 l2 : List Char)
    (h : l1.all p = true) : (l1 ++ l2).dropWhile p = l2.dropWhile p := by
  induction l1 with
  | nil => rfl
  | cons a l1 ih =>
    have ha : p a = true := by
      have := List.all_eq_true.mp h
      exact this a (List.mem_cons_self a l1)
    have hrest : l1.all p = true := by
      refine List.all_eq_true.mpr fun x hx => ?_
      exact List.all_eq_true.mp h x (List.mem_cons_of_mem a hx)
    simp [List.dropWhile_cons, ha, ih hrest]

/-- `splitPAux` consumes a run of non-separator characters into the
accumulator. -/
theorem splitPAux_run (p : Char → Bool) (t1 : List Char)
    (h : t1.all (fun c => !p c) = true) (l : List Char) : ∀ acc,
    splitPAux p (t1 ++ l) acc = splitPAux p l (t1.reverse ++ acc) := by
  induction t1 with
  | nil => intro acc; rfl
  | cons c cs ih =>
    intro acc
    have hc : p c = false := by
      have := List.all_eq_true.mp h c (List.mem_cons_self c cs)
      simpa using this
    have hrest : cs.all (fun c => !p c) = true := by
      refine List.all_eq_true.mpr fun x hx => ?_
      exact List.all_eq_true.mp h x (List.mem_cons_of_mem c hx)
    have step : splitPAux p ((c :: cs) ++ l) acc = splitPAux p (cs ++ l) (c :: acc) := by
      simp [List.cons_append, splitPAux, hc]
    rw [step, ih hrest (c :: acc)]
    simp [List.reverse_cons, List.append_assoc]

/-- `splitPAux` never returns the empty list when its accumulator is
non-empty. -/
theorem splitPAux_ne_nil (p : Char → Bool) : ∀ (l acc : List Char),
    acc ≠ [] → splitPAux p l acc ≠ [] := by
  intro l
  induction l with
  | nil =>
    intro acc hacc
    have : acc.isEmpty = false := by
      cases acc with
      | nil => exact absurd rfl hacc
      | cons a as => rfl
    simp [splitPAux, this]
  | cons c cs ih =>
    intro acc hacc
    have : acc.isEmpty = false := by
      cases acc with
      | nil => exact absurd rfl hacc
      | cons a as => rfl
    by_cases hc : p c = true
    · simp [splitPAux, hc, this]
    · have hc' : p c = false := by
        cases hcc : p c
        · rfl
        · exact absurd hcc hc
      simp only [splitPAux, hc', if_neg Bool.false_ne_true]
      exact ih (c :: acc) (List.cons_ne_nil c acc)

/-- The output-normalizer loop is a `map`. -/
theorem normalize_eq_map (seq : List OutItem) :
    _normalize_output (some seq) = seq.map normalizeItem := by
  induction seq with
  | nil => simp [_normalize_output]
  | cons i rest ih => simp [_normalize_output, ih]

/-- The preference loop of `choose_default_agent` is `List.find?`. -/
theorem choosePref_eq_find (ps names : List (List Char)) :
    choosePref ps names = ps.find? fun p => names.contains p := by
  induction ps with
  | nil => rfl
  | cons p ps ih =>
    cases h : names.contains p with
    | true =>
      have hfind : List.find? (fun q => names.contains q) (p :: ps) = some p :=
        List.find?_cons_of_pos ps h
      rw [hfind]
      simp only [choosePref, h, if_true]
    | false =>
      have hfind : List.find? (fun q => names.contains q) (p :: ps) =
          List.find? (fun q => names.contains q) ps := by
        refine List.find?_cons_of_neg ps ?_
        show ¬ names.contains p = true
        intro hc
        rw [h] at hc
        cases hc
      rw [hfind, ← ih]
      simp only [choosePref, h]
      simp

/- ------------------------------------------------------------------ -/
/- Claim theorems                                                      -/
/- ------------------------------------------------------------------ -/

/-- C3: For every input text, the ticker candidate computed by
`_maybe_upper_ticker` is exactly the spec-side candidate: "NVDA" whenever
the text contains "nvidia" in any case (overriding the token scan), else
the first whitespace/comma-separated token that is purely alphabetic,
entirely uppercase, of length 1 to 6 and not in the stop-set, else no
candidate.  The second conjunct shows the override on a text that also
holds a scannable ticker token. -/
theorem C3_ticker_candidate :
    (∀ text, _maybe_upper_ticker text = ticker_spec text) ∧
    _maybe_upper_ticker "TSLA loves NvIdIa".toList = some "NVDA".toList := by
  refine ⟨fun text => ?_, by decide⟩
  unfold _maybe_upper_ticker ticker_spec
  by_cases h : containsSub "nvidia".toList (pyLower text) = true
  · rw [if_pos h, if_pos h]
  · rw [if_neg h, if_neg h]
    rw [firstTicker_eq_find, splitP, splitP, splitPAux_comma]
    congr 1
    exact funext isTickerTok_eq_spec

/-- C6: The output normalizer never raises (it is a total function in
this embedding), maps `None` to the empty sequence, returns a sequence of
the same length with the i-th output obtained from the i-th input (order
preserved, nothing dropped), and keeps a string item unchanged. -/
theorem C6_normalizer_total :
    (_normalize_output none = []) ∧
    (∀ seq : List OutItem, (_normalize_output (some seq)).length = seq.length) ∧
    (∀ (seq : List OutItem) (i : Nat),
      (_normalize_output (some seq))[i]? = (seq[i]?).map normalizeItem) ∧
    (∀ s : List Char, _normalize_output (some [OutItem.str s]) = [s]) := by
  refine ⟨by simp [_normalize_output], fun seq => ?_, fun seq i => ?_, fun s => ?_⟩
  · rw [normalize_eq_map]
    simp
  · rw [normalize_eq_map]
    simp
  · simp [_normalize_output, normalizeItem]

/-- C7: `choose_default_agent` returns the first of "agent", "chat_agent",
"echo" present in the discovered names (priority order), else the first
discovered name (`head?`, which is `none` on an empty discovery); in
particular a discovery listing ["echo", "agent"] yields "agent". -/
theorem C7_choose_default_agent :
    (∀ names, choose_default_agent names =
      ((PRIORITY.find? fun p => names.contains p).orElse fun _ => names.head?)) ∧
    choose_default_agent (["echo", "agent"].map String.toList) = some "agent".toList ∧
    choose_default_agent [] = none := by
  refine ⟨fun names => ?_, by decide, by decide⟩
  unfold choose_default_agent
  rw [choosePref_eq_find]
  cases h : List.find? (fun p => names.contains p) PRIORITY
  · simp [h, Option.orElse]
  · simp [h, Option.orElse]

/-- C4 counterexample: with the ticker candidate "AAPL" present in
"hello AAPL" and a failing finance call, the router yields the finance
diagnostic and then proceeds to the greeting heuristic (spec step 3) —
the finance heuristic (the spec's "step 2") is invoked exactly once, so
the claimed fall-through target "step 2" is refuted on this input. -/
theorem C4_counterexample :
    route envFinErr "hello AAPL".toList =
      ⟨[REvent.callFinance "AAPL".toList, REvent.yield (financeErrMsg "down".toList),
        REvent.callHello "AAPL".toList, REvent.yield "H".toList], false⟩ ∧
    ((route envFinErr "hello AAPL".toList).events.countP fun ev =>
      match ev with
      | REvent.callFinance _ => true
      | _ => false) = 1 := by
  constructor
  · decide
  · decide

/-- C4 (amended): when a ticker candidate exists and the finance call
fails, the router yields the finance diagnostic chunk and falls through
to the greeting heuristic (spec step 3) — the next heuristic in order —
rather than terminating the request. -/
theorem C4_finance_fallthrough (env : ToolEnv) (text tick e : List Char)
    (hne : text ≠ []) (ht : _maybe_upper_ticker text = some tick)
    (hf : env.finance tick = CallRes.err e) :
    route env text =
      ⟨REvent.callFinance tick :: REvent.yield (financeErrMsg e) ::
        (routeGreeting env text).events, (routeGreeting env text).raised⟩ := by
  have hE : text.isEmpty = false := by
    cases text with
    | nil => exact absurd rfl hne
    | cons a as => rfl
  simp [route, hE, ht, hf]

/-- C4 witness: the amended theorem applied at the concrete input
"hello AAPL" with a failing finance tool; the continuation after the
diagnostic is the greeting invocation. -/
theorem C4_finance_fallthrough_witness :
    route envFinErr "hello AAPL".toList =
      ⟨[REvent.callFinance "AAPL".toList, REvent.yield (financeErrMsg "down".toList),
        REvent.callHello "AAPL".toList, REvent.yield "H".toList], false⟩ := by
  rw [C4_finance_fallthrough envFinErr "hello AAPL".toList "AAPL".toList "down".toList
    (by decide) (by decide) rfl]
  decide

/-- The fallback response body refuting C5's extraction rule: `"output"`
is present (with a falsy value) and `"data"` holds a non-empty string. -/
def body0 : FBody :=
  ⟨some (FVal.vlist []), some (FVal.vstr "x".toList)⟩

/-- C5 counterexample: on `body0` the claim's key-presence extraction
("under key output, else data, else empty") yields the empty sequence,
but the code's truthiness chain `get("output") or get("data") or []`
returns the wrapped "data" string instead. -/
theorem C5_counterexample :
    (run_with_fallback ⟨PrimaryRes.acpError, FallbackRes.ok body0⟩).2 =
      RunOut.ret [OutItem.str "x".toList] ∧
    wrapStr (extractOutByKey body0) = [] := by
  constructor
  · decide
  · decide

/-- C5 (amended): when the primary run path reports a protocol-level
`ACPError`, exactly one fallback raw request is issued (primary first,
each path at most once), and the fallback's output is the first truthy
value among the body's `"output"` and `"data"` entries, else the empty
sequence, with a single string wrapped into a one-element sequence. -/
theorem C5_fallback_schema (env : RunEnv) (h : env.primary = PrimaryRes.acpError) :
    (run_with_fallback env).1 = [Attempt.primaryRun, Attempt.fallbackRaw] ∧
    (∀ body, env.fallback = FallbackRes.ok body →
      (run_with_fallback env).2 = RunOut.ret (wrapStr (extractOut body))) := by
  constructor
  · cases hf : env.fallback <;> simp [run_with_fallback, h, hf]
  · intro body hb
    simp [run_with_fallback, h, hb]

/-- C5 witness: the amended theorem applied at a concrete environment
whose primary path fails with `ACPError` and whose fallback body carries
a plain string under `"data"`. -/
theorem C5_fallback_schema_witness :
    (run_with_fallback ⟨PrimaryRes.acpError, FallbackRes.ok ⟨none, some (FVal.vstr "y".toList)⟩⟩).1 =
      [Attempt.primaryRun, Attempt.fallbackRaw] ∧
    (run_with_fallback ⟨PrimaryRes.acpError, FallbackRes.ok ⟨none, some (FVal.vstr "y".toList)⟩⟩).2 =
      RunOut.ret [OutItem.str "y".toList] := by
  have h := C5_fallback_schema ⟨PrimaryRes.acpError, FallbackRes.ok ⟨none, some (FVal.vstr "y".toList)⟩⟩ rfl
  exact ⟨h.1, (h.2 ⟨none, some (FVal.vstr "y".toList)⟩ rfl).trans (by decide)⟩

/-- C8 counterexample: a response whose `"agents"` list mixes one
conforming name string with a non-conforming number is not of the
accepted shape, yet `discover_agents` returns the non-empty list ["a"]
(the non-conforming element is skipped individually) instead of the
empty sequence the claim requires for any other shape. -/
theorem C8_counterexample :
    discover_agents (HttpRes.ok (JVal.jobj
      [("agents".toList, JVal.jarr [JVal.jstr "a".toList, JVal.jnum 42])])) =
      ["a".toList] ∧
    discover_agents (HttpRes.ok (JVal.jobj
      [("agents".toList, JVal.jarr [JVal.jstr "a".toList, JVal.jnum 42])])) ≠ [] := by
  constructor
  · decide
  · decide

/-- C8 (amended): `discover_agents` never propagates an error: any
network/parse failure, a non-mapping body, a missing `"agents"` key, and
a non-iterable `"agents"` value all yield the empty sequence; within an
iterable `"agents"` value the conforming elements (name strings, or
mappings with a string `"name"`) are collected in order and every other
element is skipped individually, so a partially conforming response
yields its conforming names rather than an empty sequence. -/
theorem C8_discover_degrades :
    (discover_agents HttpRes.netErr = []) ∧
    (∀ xs, discover_agents (HttpRes.ok (JVal.jarr xs)) = []) ∧
    (∀ s, discover_agents (HttpRes.ok (JVal.jstr s)) = []) ∧
    (∀ fields, jlookup "agents".toList fields = none →
      discover_agents (HttpRes.ok (JVal.jobj fields)) = []) ∧
    (∀ fields v, jlookup "agents".toList fields = some v → agentItems v = none →
      discover_agents (HttpRes.ok (JVal.jobj fields)) = []) ∧
    (∀ fields v items, jlookup "agents".toList fields = some v → agentItems v = some items →
      discover_agents (HttpRes.ok (JVal.jobj fields)) = items.filterMap itemName) := by
  refine ⟨rfl, fun xs => rfl, fun s => rfl, fun fields h => ?_, fun fields v h1 h2 => ?_,
    fun fields v items h1 h2 => ?_⟩
  · simp only [discover_agents]
    rw [h]
  · simp only [discover_agents, h1, h2]
  · simp only [discover_agents, h1, h2]

/-- C8 witness: the amended theorem applied at a concrete object body
whose `"agents"` list mixes a name string, a number and a mapping with a
string `"name"`; the two conforming names are collected in order. -/
theorem C8_discover_degrades_witness :
    discover_agents (HttpRes.ok (JVal.jobj
      [("agents".toList, JVal.jarr [JVal.jstr "a".toList, JVal.jnum 3,
        JVal.jobj [("name".toList, JVal.jstr "b".toList)]])])) =
      ["a".toList, "b".toList] := by
  rw [C8_discover_degrades.2.2.2.2.2
    [("agents".toList, JVal.jarr [JVal.jstr "a".toList, JVal.jnum 3,
      JVal.jobj [("name".toList, JVal.jstr "b".toList)]])]
    (JVal.jarr [JVal.jstr "a".toList, JVal.jnum 3,
      JVal.jobj [("name".toList, JVal.jstr "b".toList)]])
    [JVal.jstr "a".toList, JVal.jnum 3, JVal.jobj [("name".toList, JVal.jstr "b".toList)]]
    rfl rfl]
  decide

/-- C9: For every input text that starts with "hello" case-insensitively
and yields no ticker candidate, the router's first action is to invoke
the greeting tool with `helloName text`; `helloName` is the remainder of
the text after the first whitespace run following the first token when a
second token exists, and defaults to "there" otherwise. -/
theorem C9_greeting_branch :
    (∀ (env : ToolEnv) (text : List Char), text ≠ [] →
      _maybe_upper_ticker text = none →
      chPre "hello".toList (pyLower text) = true →
      (route env text).events.head? = some (REvent.callHello (helloName text))) ∧
    (∀ (t1 : List Char) (r : Char) (rs : List Char), t1 ≠ [] →
      t1.all (fun c => !pySpace c) = true → pySpace r = false →
      helloName (t1 ++ ' ' :: r :: rs) = r :: rs) ∧
    (∀ text, (splitP pySpace text).length ≤ 1 → helloName text = "there".toList) := by
  refine ⟨fun env text hne ht hh => ?_, fun t1 r rs hne hall hr => ?_, fun text hlen => ?_⟩
  · have hE : text.isEmpty = false := by
      cases text with
      | nil => exact absurd rfl hne
      | cons a as => rfl
    have hh' : chPre ['h', 'e', 'l', 'l', 'o'] (pyLower text) = true := hh
    cases hres : env.hello (helloName text) <;>
      simp [route, hE, ht, routeGreeting, hh, hh', hres]
  · have hlen2 : 1 < (splitP pySpace (t1 ++ ' ' :: r :: rs)).length := by
      have hrun := splitPAux_run pySpace t1 hall (' ' :: r :: rs) []
      have hrevne : t1.reverse ≠ [] := by
        cases t1 with
        | nil => exact absurd rfl hne
        | cons a as => simp
      have hrevE : (t1.reverse ++ ([] : List Char)).isEmpty = false := by
        rw [List.append_nil]
        cases ht : t1.reverse with
        | nil => exact absurd ht hrevne
        | cons a as => rfl
      have hsp : pySpace ' ' = true := by decide
      have htail : splitPAux pySpace (' ' :: r :: rs) (t1.reverse ++ []) =
          (t1.reverse ++ ([] : List Char)).reverse :: splitPAux pySpace (r :: rs) [] := by
        simp only [splitPAux, hsp, if_true, hrevE, if_neg Bool.false_ne_true]
      have hne2 : splitPAux pySpace (r :: rs) [] ≠ [] := by
        have : splitPAux pySpace (r :: rs) [] = splitPAux pySpace rs [r] := by
          simp only [splitPAux, hr, if_neg Bool.false_ne_true]
        rw [this]
        exact splitPAux_ne_nil pySpace rs [r] (List.cons_ne_nil r [])
      rw [splitP, hrun, htail]
      have : 1 ≤ (splitPAux pySpace (r :: rs) []).length := by
        cases hx : splitPAux pySpace (r :: rs) [] with
        | nil => exact absurd hx hne2
        | cons a as => simp
      simp only [List.length_cons]
      omega
    have hName : splitMax1Rest (t1 ++ ' ' :: r :: rs) = r :: rs := by
      obtain ⟨a, t1', rfl⟩ : ∃ a t1', t1 = a :: t1' := by
        cases t1 with
        | nil => exact absurd rfl hne
        | cons a as => exact ⟨a, as, rfl⟩
      have ha : pySpace a = false := by
        have := List.all_eq_true.mp hall a (List.mem_cons_self a t1')
        simpa using this
      unfold splitMax1Rest
      rw [List.cons_append, List.dropWhile_cons]
      rw [ha]
      simp only [Bool.false_eq_true, if_false]
      rw [← List.cons_append,
        dropWhile_append_of_all (fun c => !pySpace c) (a :: t1') (' ' :: r :: rs) hall]
      have hsp : (!pySpace ' ') = false := by decide
      have hsp2 : pySpace ' ' = true := by decide
      simp [List.dropWhile_cons, hsp, hsp2, hr]
    unfold helloName
    rw [if_pos hlen2, hName]
  · unfold helloName
    rw [if_neg (by omega)]

/-- C9 witness: the greeting branch applied at "hello world" (argument
"world") and at "hello" alone (argument defaulting to "there"), with all
hypotheses discharged at the concrete inputs. -/
theorem C9_greeting_branch_witness :
    (route envOk "hello world".toList).events.head? =
      some (REvent.callHello (helloName "hello world".toList)) ∧
    helloName "hello world".toList = "world".toList ∧
    (route envOk "hello".toList).events.head? =
      some (REvent.callHello (helloName "hello".toList)) ∧
    helloName "hello".toList = "there".toList := by
  refine ⟨?_, by decide, ?_, by decide⟩
  · exact C9_greeting_branch.1 envOk "hello world".toList (by decide) (by decide) (by decide)
  · exact C9_greeting_branch.1 envOk "hello".toList (by decide) (by decide) (by decide)

/-- A crawl environment whose search call raises. -/
def cenvBad : CrawlEnv :=
  ⟨fun _ => Except.error "boom".toList, fun _ => Except.error "boom".toList⟩

/-- A yahoo-finance environment whose ticker construction raises. -/
def yenvBad : YahooEnv :=
  ⟨fun _ => Except.error "boom".toList, Except.error "boom".toList, Except.error "boom".toList⟩

/-- An embedder environment whose retriever setup raises. -/
def eenvBad : EmbedEnv :=
  ⟨Except.error "boom".toList, fun _ => Except.error "boom".toList⟩

/-- A similarity-search environment whose retriever setup raises. -/
def senvBad : SimEnv :=
  ⟨Except.error "boom".toList, fun _ => Except.error "boom".toList⟩

/-- C10: Every registered tool of the tool server returns normally: when
its body raises internally, the tool returns the corresponding
"Error in ..." message string; when its body completes, the tool returns
that value; `hello_tool` returns its constant.  So a tool-side failure
reaches callers as an ordinary string result, never as a raised error. -/
theorem C10_tools_return_strings :
    (∀ env q e, web_crawl_body env q = Except.error e →
      web_crawl_tool env q = "Error in web_crawl_tool: ".toList ++ e) ∧
    (∀ env t e, yahoo_body env t = Except.error e →
      yahoo_finance_tool env t = "Error in yahoo_finance_tool: ".toList ++ e) ∧
    (∀ env t e, embedder_body env t = Except.error e →
      embedder_tool env t = "Error in embedder_tool: ".toList ++ e) ∧
    (∀ env q e, similarity_body env q = Except.error e →
      similarity_search_tool env q = "Error in similarity_search_tool: ".toList ++ e) ∧
    (∀ env q s, web_crawl_body env q = Except.ok s → web_crawl_tool env q = s) ∧
    (∀ env t s, yahoo_body env t = Except.ok s → yahoo_finance_tool env t = s) ∧
    (∀ env t s, embedder_body env t = Except.ok s → embedder_tool env t = s) ∧
    (∀ env q s, similarity_body env q = Except.ok s → similarity_search_tool env q = s) ∧
    (∀ q, hello_tool q = "hello from mcp".toList) := by
  refine ⟨fun env q e h => ?_, fun env t e h => ?_, fun env t e h => ?_, fun env q e h => ?_,
    fun env q s h => ?_, fun env t s h => ?_, fun env t s h => ?_, fun env q s h => ?_,
    fun q => rfl⟩
  · simp [web_crawl_tool, h]
  · simp [yahoo_finance_tool, h]
  · simp [embedder_tool, h]
  · simp [similarity_search_tool, h]
  · simp [web_crawl_tool, h]
  · simp [yahoo_finance_tool, h]
  · simp [embedder_tool, h]
  · simp [similarity_search_tool, h]

/-- C10 witness: each tool applied in an environment whose first internal
step raises; every tool returns its error-message string. -/
theorem C10_tools_return_strings_witness :
    web_crawl_tool cenvBad "q".toList = "Error in web_crawl_tool: boom".toList ∧
    yahoo_finance_tool yenvBad "NVDA".toList = "Error in yahoo_finance_tool: boom".toList ∧
    embedder_tool eenvBad "t".toList = "Error in embedder_tool: boom".toList ∧
    similarity_search_tool senvBad "q".toList = "Error in similarity_search_tool: boom".toList := by
  refine ⟨?_, ?_, ?_, ?_⟩
  · exact (C10_tools_return_strings.1 cenvBad "q".toList "boom".toList rfl).trans (by decide)
  · exact (C10_tools_return_strings.2.1 yenvBad "NVDA".toList "boom".toList rfl).trans (by decide)
  · exact (C10_tools_return_strings.2.2.1 eenvBad "t".toList "boom".toList rfl).trans (by decide)
  · exact (C10_tools_return_strings.2.2.2.1 senvBad "q".toList "boom".toList rfl).trans (by decide)

/-- C1: the failing input "Crawl: best pizza nyc" contains "crawl:"
case-insensitively (first conjunct), no earlier heuristic matches
(second and third conjuncts), yet instead of invoking the web-crawl tool
with "best pizza nyc" the router raises `IndexError` out of the request
with no output at all: `text.split("crawl:", 1)` searches for the
lowercase literal, which is absent from the original text. -/
theorem C1_crawl_mixed_case_raises :
    containsSub "crawl:".toList (pyLower "Crawl: best pizza nyc".toList) = true ∧
    _maybe_upper_ticker "Crawl: best pizza nyc".toList = none ∧
    chPre "hello".toList (pyLower "Crawl: best pizza nyc".toList) = false ∧
    route envOk "Crawl: best pizza nyc".toList = ⟨[], true⟩ := by
  refine ⟨by decide, by decide, by decide, by decide⟩

/-- C2: the well-formed one-message input "Crawl: hi" makes the agent
handler raise `IndexError` after producing zero output chunks, even
though every tool environment is healthy — the router does not absorb
this failure into a diagnostic or echo chunk. -/
theorem C2_router_can_raise :
    agentRun envOk [⟨[MsgPart.strPart "Crawl: hi".toList]⟩] = ⟨[], true⟩ := by
  decide
